import Mathlib

/-!
# Verification of the Humano multi-pipeline container core

A shallow embedding, in Lean 4, of the core logic of the repository:

* the deduplication store (`already_done` / `mark_done`,
  `email_watcher/pipeline_watcher.py`),
* the sweep that filters, orders and dispatches unseen trigger mails
  (`process_new_unseen`, `_process_multiple_emails_coordinated`,
  `_process_single_email_coordinated`),
* subject-date extraction for ordering (`extract_date_from_subject`),
* pipeline routing (`detect_pipeline_type`, `pipeline_manager.py`),
* reconnect backoff (`calculate_backoff`),
* the watcher's push/poll/reconnect mode machine (`idle_with_keepalive`,
  `polling_loop_with_interval`, `idle_loop`, `main`),
* the session coordinator's report gating and timeout classification
  (`shared/pipeline_coordinator.py`),
* the SI retry-with-exclusion executor
  (`si_pipeline/corrected_main.py`).

Machine integers do not overflow in any modelled path, so numbers are
`Nat`/`Rat`.  Strings are modelled as Lean `String`/`List Char`; the
Python `str.lower` and `\s` of the source are modelled on their ASCII
fragment, which covers every pattern the source matches against.
-/

/-! ## Deduplication store

`processed` table of `STATE_DB`: primary key `message_id`, payload
columns `ts`, `subject`, `from_addr`.  The table is modelled as an
association list in insertion order. -/

/-- Payload columns of one `processed` row (`ts`, `subject`, `from_addr`). -/
structure ProcRow where
  ts : Nat
  subject : List Char
  fromAddr : String
  deriving DecidableEq, Repr

/-- The `processed` table, in insertion order, keyed by `message_id`. -/
abbrev DedupStore := List (String × ProcRow)

/-- `already_done(con, mid)`: `if not mid: return False`, then
`SELECT 1 FROM processed WHERE message_id=?`. -/
def already_done (store : DedupStore) (mid : String) : Bool :=
  if mid = "" then false else (store.lookup mid).isSome

/-- `mark_done(con, mid, subject, from_addr)`: `if not mid: return`, then
`INSERT OR IGNORE` (keeps the existing row when the key is present). -/
def mark_done (store : DedupStore) (mid : String) (row : ProcRow) : DedupStore :=
  if mid = "" then store
  else if (store.lookup mid).isSome then store
  else store ++ [(mid, row)]

/-! ## Pipeline routing (`pipeline_manager.detect_pipeline_type`) -/

/-- ASCII fragment of Python `str.lower`, character by character. -/
def lowerChar (c : Char) : Char :=
  if 'A' ≤ c ∧ c ≤ 'Z' then Char.ofNat (c.toNat + 32) else c

/-- Whether `pat` occurs at the head of `l`. -/
def listStartsWith : List Char → List Char → Bool
  | [], _ => true
  | _ :: _, [] => false
  | p :: ps, c :: cs => p = c && listStartsWith ps cs

/-- Python `pat in text` for strings: `pat` occurs contiguously in `text`. -/
def containsSub (pat : List Char) : List Char → Bool
  | [] => listStartsWith pat []
  | c :: cs => listStartsWith pat (c :: cs) || containsSub pat cs

/-- `detect_pipeline_type(subject, from_addr)`: lowercases the subject and
tests two fixed substrings; `from_addr` is accepted and ignored. -/
def detect_pipeline_type (subject : List Char) (fromAddr : String) : String :=
  let subjectLower := subject.map lowerChar
  if containsSub "asegurados viajeros".data subjectLower then "viajeros"
  else if containsSub "asegurados salud internacional".data subjectLower then "si"
  else "unknown"

/-! ## Subject-date extraction (`extract_date_from_subject`)

The regex is `\|\s*(\d{4}-\d{2}-\d{2})` followed by
`datetime.strptime(date_str, '%Y-%m-%d')`; on no match or an invalid
calendar date the function returns `datetime.now()`.  The timeline is
modelled by `Nat`; `dateStamp` is an order embedding of calendar dates
into it (days scaled by 86400 so the clock instant `tNow` of the current
day can sit strictly between midnights). -/

/-- Exactly `n` leading decimal digits of `l`, as a number, with the rest. -/
def parseDigits : Nat → List Char → Option (Nat × List Char)
  | 0, l => some (0, l)
  | _ + 1, [] => none
  | n + 1, c :: cs =>
    if c.isDigit then
      match parseDigits n cs with
      | some (v, rest) => some ((c.toNat - '0'.toNat) * 10 ^ n + v, rest)
      | none => none
    else none

/-- Match `\s*\d{4}-\d{2}-\d{2}` at the head of `l` (the part of the
pattern after the literal bar); `\s` is modelled by ASCII whitespace. -/
def matchAfterBar (l : List Char) : Option (Nat × Nat × Nat) :=
  let l := l.dropWhile Char.isWhitespace
  match parseDigits 4 l with
  | none => none
  | some (y, rest) =>
    match rest with
    | '-' :: rest =>
      match parseDigits 2 rest with
      | none => none
      | some (m, rest) =>
        match rest with
        | '-' :: rest =>
          match parseDigits 2 rest with
          | none => none
          | some (d, _) => some (y, m, d)
        | _ => none
    | _ => none

/-- `re.search` of `\|\s*(\d{4}-\d{2}-\d{2})`: the leftmost position where
the whole pattern matches (every match starts at a literal bar). -/
def findDate : List Char → Option (Nat × Nat × Nat)
  | [] => none
  | c :: cs =>
    if c = '|' then
      match matchAfterBar cs with
      | some d => some d
      | none => findDate cs
    else findDate cs

/-- Gregorian leap year, as `datetime` uses it. -/
def isLeap (y : Nat) : Bool := y % 4 = 0 && (y % 100 ≠ 0 || y % 400 = 0)

/-- Days in month `m` of year `y`. -/
def daysInMonth (y m : Nat) : Nat :=
  if m = 2 then (if isLeap y then 29 else 28)
  else if m = 4 ∨ m = 6 ∨ m = 9 ∨ m = 11 then 30
  else 31

/-- The dates `strptime '%Y-%m-%d'` accepts (`datetime` years are 1..9999;
the regex already bounds the year below 10000). -/
def validDate (y m d : Nat) : Bool :=
  1 ≤ y && 1 ≤ m && m ≤ 12 && 1 ≤ d && d ≤ daysInMonth y m

/-- Midnight of `(y, m, d)` on the model timeline.  Lexicographic order on
valid dates (`m ≤ 12 < 100`, `d ≤ 31 < 100`) agrees with numeric order of
the encoding, so this is an order embedding of chronological order. -/
def dateStamp (y m d : Nat) : Nat := ((y * 100 + m) * 100 + d) * 86400

/-- `extract_date_from_subject(subject)`: the parsed subject date, or the
current instant `tNow` when the date is absent or invalid. -/
def extract_date_from_subject (tNow : Nat) (subject : List Char) : Nat :=
  match findDate subject with
  | some (y, m, d) => if validDate y m d then dateStamp y m d else tNow
  | none => tNow

/-! ## The sweep (`process_new_unseen` and the coordinated dispatch)

A fetched message is modelled by its decoded headers.  The configured
subject/sender regexes are abstracted by a `trigger` predicate (the
source compiles them from `MATCH_SUBJECT_REGEX`/`MATCH_FROM_REGEX`), and
`allowed_now()` by a boolean `allowed` for the sweep.  `attachOk m` is
the outcome of `process_email_attachments` for `m`. -/

/-- A fetched message: decoded `Message-ID`, subject and sender. -/
structure Msg where
  mid : String
  subject : List Char
  fromAddr : String
  deriving DecidableEq, Repr

/-- The collection loop of `process_new_unseen`: skip messages already in
the store, then those that fail `should_trigger`, then those outside the
allowed window; annotate the rest with the subject-date ordering key. -/
def sweepCollect (store : DedupStore) (trigger : Msg → Bool) (allowed : Bool)
    (tNow : Nat) (msgs : List Msg) : List (Msg × Nat) :=
  msgs.filterMap fun m =>
    if already_done store m.mid then none
    else if ¬ trigger m then none
    else if ¬ allowed then none
    else some (m, extract_date_from_subject tNow m.subject)

/-- Insert `x` into a key-sorted list, after every element whose key is
strictly smaller and before the first whose key is not. -/
def insertByKey (key : α → Nat) (x : α) : List α → List α
  | [] => [x]
  | y :: ys => if key y < key x then y :: insertByKey key x ys else x :: y :: ys

/-- Stable ascending sort by `key`.  `list.sort(key=...)` is the stable
ascending sort; over a linear key order the stable sorted list is unique,
so insertion sort is the same function as the source's Timsort. -/
def sortByKey (key : α → Nat) (l : List α) : List α :=
  l.foldr (insertByKey key) []

/-- Routing key of a message (`detect_pipeline_type(subject, from_addr)`). -/
def routeOf (m : Msg) : String := detect_pipeline_type m.subject m.fromAddr

/-- Keys of `l` in first-occurrence order: the iteration order of the
`pipeline_groups` dict built by insertion in
`_process_multiple_emails_coordinated`. -/
def firstOccAux (seen : List String) : List String → List String
  | [] => []
  | k :: ks =>
    if k ∈ seen then firstOccAux seen ks
    else k :: firstOccAux (k :: seen) ks

/-- First-occurrence order of a list of keys. -/
def firstOccurrences (l : List String) : List String := firstOccAux [] l

/-- Group the (already sorted) annotated messages by routing key and
concatenate the groups in first-occurrence order, as the dispatch loop of
`_process_multiple_emails_coordinated` does.  (A singleton sweep goes
through `_process_single_email_coordinated`, which agrees with this.) -/
def dispatchOrder (l : List (Msg × Nat)) : List (Msg × Nat) :=
  (firstOccurrences (l.map fun p => routeOf p.1)).flatMap fun k =>
    l.filter fun p => routeOf p.1 == k

/-- Ordering key projection for annotated messages. -/
def keyOf (p : Msg × Nat) : Nat := p.2

/-- The full dispatch order of one sweep: collect, sort by subject date
(oldest first), then group by pipeline type. -/
def sweepDispatch (store : DedupStore) (trigger : Msg → Bool) (allowed : Bool)
    (tNow : Nat) (msgs : List Msg) : List (Msg × Nat) :=
  dispatchOrder (sortByKey keyOf (sweepCollect store trigger allowed tNow msgs))

/-- One sweep end to end: the dispatched messages in order, and the final
store.  `_process_single_email_coordinated` calls `mark_done` exactly for
the dispatched messages whose attachment processing succeeded. -/
def sweepRun (store : DedupStore) (trigger : Msg → Bool) (allowed : Bool)
    (tNow : Nat) (attachOk : Msg → Bool) (msgs : List Msg) :
    List (Msg × Nat) × DedupStore :=
  let dl := sweepDispatch store trigger allowed tNow msgs
  (dl, dl.foldl (fun st p =>
    if attachOk p.1 then mark_done st p.1.mid ⟨tNow, p.1.subject, p.1.fromAddr⟩
    else st) store)

/-! ## Reconnect backoff (`calculate_backoff`)

`base_backoff = 3`; the `1.5 ** n` of the source is a Python float, exact
for every reachable `n ≤ 5` (`1.5 ** n = 3^n / 2^n` needs well under 53
bits), so `Rat` models the arithmetic exactly. -/

/-- `calculate_backoff(consecutive_failures, is_ssl_error_flag)`. -/
def calculate_backoff (consecutiveFailures : Nat) (isSslErrorFlag : Bool) : ℚ :=
  let baseBackoff : ℚ := 3
  if isSslErrorFlag then
    if consecutiveFailures ≤ 3 then min (baseBackoff * 2 ^ consecutiveFailures) 60
    else min (baseBackoff * 2 ^ consecutiveFailures) 300
  else
    if consecutiveFailures ≤ 5 then
      min (baseBackoff * (3 / 2 : ℚ) ^ consecutiveFailures) 120
    else min (baseBackoff * 2 ^ consecutiveFailures) 300

/-! ## Watcher mode machine (`idle_with_keepalive` / `polling_loop_with_interval`
/ `idle_loop` / `main`)

Control-flow embedding of the monitoring loops.  One `WatchEvent` is one
iteration outcome of the active loop (an IDLE cycle or a polling cycle
succeeding or raising), or a successful reconnect while reconnecting.

* `idle_with_keepalive` counts consecutive failing cycles, resets the
  count on success, and returns `False` at 3 failures; `idle_loop` then
  sets `use_idle = False` and enters the polling loop.
* `polling_loop_with_interval` counts consecutive failing cycles, resets
  on success, and returns `False` at 3 failures; `idle_loop` then returns
  `False` and `main` closes the client and reconnects.
* After a successful reconnect `main` calls `idle_loop` again, which
  recomputes `use_idle = (POLL_INTERVAL == 0)` from scratch.

`pollPref` is `POLL_INTERVAL == 0` (prefer push). -/

/-- The watcher's current activity. -/
inductive WatchMode
  | idleMode
  | pollMode
  | reconnecting
  deriving DecidableEq, Repr

/-- One iteration outcome fed to the watcher loops. -/
inductive WatchEvent
  | cycleOk
  | cycleErr
  | reconnected
  deriving DecidableEq, Repr

/-- Watcher loop state: the mode, `idle_loop`'s `use_idle`, and the two
consecutive-failure counters. -/
structure WatcherState where
  mode : WatchMode
  useIdle : Bool
  idleFailures : Nat
  pollFailures : Nat
  deriving DecidableEq, Repr

/-- State on entry to a fresh `idle_loop` call (`use_idle = POLL_INTERVAL == 0`). -/
def watcherInit (pollPref : Bool) : WatcherState :=
  { mode := if pollPref then .idleMode else .pollMode
    useIdle := pollPref
    idleFailures := 0
    pollFailures := 0 }

/-- One transition of the watcher loops. -/
def watcherStep (pollPref : Bool) (s : WatcherState) (e : WatchEvent) : WatcherState :=
  match s.mode, e with
  | .idleMode, .cycleOk => { s with idleFailures := 0 }
  | .idleMode, .cycleErr =>
    if s.idleFailures + 1 ≥ 3 then
      { mode := .pollMode, useIdle := false, idleFailures := 0, pollFailures := 0 }
    else { s with idleFailures := s.idleFailures + 1 }
  | .pollMode, .cycleOk => { s with pollFailures := 0 }
  | .pollMode, .cycleErr =>
    if s.pollFailures + 1 ≥ 3 then { s with mode := .reconnecting }
    else { s with pollFailures := s.pollFailures + 1 }
  | .reconnecting, .reconnected => watcherInit pollPref
  | _, _ => s

/-- Run the watcher from process start over a list of iteration outcomes. -/
def watcherRun (pollPref : Bool) (es : List WatchEvent) : WatcherState :=
  es.foldl (watcherStep pollPref) (watcherInit pollPref)

/-! ## Coordinator report gating (`_check_and_send_combined_report`,
`_start_timeout_monitor`, `_send_combined_report`)

Both the join check and the timeout watcher execute, against the shared
session row, the two-phase program

1. `SELECT ... combined_report_sent ...` (its own connection/transaction);
2. if the flag was read as unset: `UPDATE ... combined_report_sent = TRUE`,
   commit, then emit the report (`_send_combined_report` and
   `_send_timeout_report` set the flag and emit without re-checking it).

`RaceState` holds the shared flag, the number of reports emitted so far,
and each agent's program counter (0 = about to read, 1 = read the flag as
unset and about to set-and-emit, 2 = finished).  Agent 0 is the join
check, agent 1 the timeout watcher; a schedule is the interleaving. -/

/-- Shared session flag, emission count, and both agents' positions. -/
structure RaceState where
  reportSent : Bool
  emissions : Nat
  pc0 : Nat
  pc1 : Nat
  deriving DecidableEq, Repr

/-- Both agents before their read, no report emitted. -/
def raceInit : RaceState := ⟨false, 0, 0, 0⟩

/-- One step of agent `a`: its read transaction, or its set-and-emit. -/
def raceStep (s : RaceState) (a : Fin 2) : RaceState :=
  let pc := if a = 0 then s.pc0 else s.pc1
  let next : Nat × Bool × Nat :=
    match pc with
    | 0 => if s.reportSent then (2, s.reportSent, s.emissions) else (1, s.reportSent, s.emissions)
    | 1 => (2, true, s.emissions + 1)
    | _ => (pc, s.reportSent, s.emissions)
  if a = 0 then
    { reportSent := next.2.1, emissions := next.2.2, pc0 := next.1, pc1 := s.pc1 }
  else
    { reportSent := next.2.1, emissions := next.2.2, pc0 := s.pc0, pc1 := next.1 }

/-- Run a schedule (a list of agent choices) from a state. -/
def raceRun (sched : List (Fin 2)) (s : RaceState) : RaceState :=
  sched.foldl raceStep s

/-! ## Timeout report classification (`_send_timeout_report`)

After marking the report sent, `_send_timeout_report` reads the session's
four timestamps and branches on
`si_active = si_started is not None and si_completed is not None` (and
likewise for viajeros): single-pipeline report, coordination-failed
report, or the nothing-was-active report. -/

/-- Which report variant `_send_timeout_report` emits. -/
inductive TimeoutReportKind
  | siOnly
  | viajerosOnly
  | coordinationFailed
  | noneActive
  deriving DecidableEq, Repr

/-- The branch taken by `_send_timeout_report`, from the session row's
`si_started_at`, `si_completed_at`, `viajeros_started_at`,
`viajeros_completed_at`. -/
def timeoutReportKind (siStarted siCompleted vStarted vCompleted : Option Nat) :
    TimeoutReportKind :=
  let siActive := siStarted.isSome && siCompleted.isSome
  let vActive := vStarted.isSome && vCompleted.isSome
  if siActive && !vActive then .siOnly
  else if vActive && !siActive then .viajerosOnly
  else if siActive && vActive then .coordinationFailed
  else .noneActive

/-! ## SI retry with exclusion (`si_pipeline/corrected_main.py`)

An insured member or an API-reported individual is a record with optional
`passport` and `identity` fields (a missing or empty string field is
falsy in the source's `insured.get(...)` checks) and its remaining
payload.  An emission group is its insured list plus the
`metadata.total_asegurados` counter; a batch maps `policy_number` to a
group in dict insertion order. -/

/-- One insured member / one individual reported by the validation API. -/
structure Insured where
  passport : Option String
  identity : Option String
  payload : String
  deriving DecidableEq, Repr

/-- One emission group: the `emision.insured` list and
`metadata.total_asegurados`. -/
structure Emision where
  insured : List Insured
  metadataTotal : Nat
  deriving DecidableEq, Repr

/-- The emission JSON: `policy_number → emission` in insertion order. -/
abbrev Batch := List (String × Emision)

/-- Python truthiness of an optional string field. -/
def truthy : Option String → Bool
  | none => false
  | some s => s ≠ ""

/-- `failed_passports`: the truthy passports of the excluded individuals. -/
def failedPassports (failed : List Insured) : List String :=
  failed.filterMap fun i => if truthy i.passport then i.passport else none

/-- `failed_identities`: the truthy identities of the excluded individuals. -/
def failedIdentities (failed : List Insured) : List String :=
  failed.filterMap fun i => if truthy i.identity then i.identity else none

/-- Truthy field membership in an exclusion set. -/
def matchesList (l : List String) : Option String → Bool
  | none => false
  | some s => s ≠ "" && l.contains s

/-- `should_remove` for one insured member: truthy passport in
`failed_passports`, or truthy identity in `failed_identities`. -/
def shouldRemove (fps fids : List String) (i : Insured) : Bool :=
  matchesList fps i.passport || matchesList fids i.identity

/-- The filtered copy of one group: kept members in order, and
`metadata.total_asegurados` reset to their count. -/
def filterEmision (fps fids : List String) (e : Emision) : Emision :=
  let kept := e.insured.filter fun i => !(shouldRemove fps fids i)
  { insured := kept, metadataTotal := kept.length }

/-- `filter_individuals_from_json(json_path, failed_individuals)`: on an
empty exclusion list the original batch with no removals; otherwise every
group filtered (an emptied group stays in the batch, with an empty
insured list), and the removed members accumulated in iteration order. -/
def filter_individuals_from_json (batch : Batch) (failed : List Insured) :
    Batch × List Insured :=
  if failed = [] then (batch, [])
  else
    let fps := failedPassports failed
    let fids := failedIdentities failed
    (batch.map fun pe => (pe.1, filterEmision fps fids pe.2),
     batch.flatMap fun pe => pe.2.insured.filter (shouldRemove fps fids))

/-! ### `procesar_validacion` (modelled)

`emisor_goval/utils/procesar_validacion.py` is not under `src/` (only
its callers are), so the external-workflow step is modelled from the
spec.  The external API's behaviour per submitted group is abstracted by
an oracle. -/

/-- Outcome of the external quotation → validation → payment sequence for
one submitted group. -/
inductive ApiOutcome
  | success
  | reject417 (found : List Insured)
  | failure (msg : String)

/-- One recorded failure: the invoice, its group, and the error details
(status code, the validation API's `found` individuals, and the reason). -/
structure FallidaRec where
  factura : String
  emision : Emision
  statusCode : Option Nat
  apiFound : Option (List Insured)
  reason : String
  deriving DecidableEq, Repr

/-- Modelled from the spec: `procesar_validacion` of
`emisor_goval/utils/procesar_validacion.py`, which is not under `src/`.
Per §4.6 of the spec it submits each group through quotation → manager
validation → payment; a group with zero members is recorded as failed
with reason "all members excluded" and is not submitted; a structural
(417) rejection from validation is recorded with the API's `found`
individuals; any other failure is a single terminal failure for the
group.  The outcome of one group's classification. -/
def groupOutcome (api : String → Emision → ApiOutcome) (pe : String × Emision) :
    (String × Emision) ⊕ FallidaRec :=
  if pe.2.insured = [] then
    .inr ⟨pe.1, pe.2, none, none, "all members excluded"⟩
  else
    match api pe.1 pe.2 with
    | .success => .inl pe
    | .reject417 found => .inr ⟨pe.1, pe.2, some 417, some found, "validation rejected"⟩
    | .failure m => .inr ⟨pe.1, pe.2, none, none, m⟩

/-- Modelled from the spec: the `emisiones_exitosas` component of
`procesar_validacion` — the groups whose submission succeeded. -/
def procesarExitosas (api : String → Emision → ApiOutcome) (batch : Batch) : Batch :=
  batch.filterMap fun pe => (groupOutcome api pe).getLeft?

/-- Modelled from the spec: the `emisiones_fallidas` component of
`procesar_validacion` — the recorded failures. -/
def procesarFallidas (api : String → Emision → ApiOutcome) (batch : Batch) :
    List FallidaRec :=
  batch.filterMap fun pe => (groupOutcome api pe).getRight?

/-- Modelled from the spec: the `(emisiones_exitosas, emisiones_fallidas)`
pair `procesar_validacion` returns for a batch. -/
def procesar_validacion (api : String → Emision → ApiOutcome) (batch : Batch) :
    Batch × List FallidaRec :=
  (procesarExitosas api batch, procesarFallidas api batch)

/-- Modelled from the spec: the groups `procesar_validacion` actually
submits to the external API (a group emptied by exclusion is not
resubmitted). -/
def submittedGroups (batch : Batch) : Batch :=
  batch.filter fun pe => ¬ pe.2.insured = []

/-! ### `process_si_emission_with_retry` -/

/-- One entry of `failed_individuals_data`: the invoice, the individuals
the API reported, and (once filtering ran) the members removed. -/
structure FailedData where
  factura : String
  apiFailedIndividuals : List Insured
  removedIndividuals : List Insured
  deriving DecidableEq, Repr

/-- Result of `process_si_emission_with_retry`, plus two model artifacts:
the trace of batches submitted to `procesar_validacion` (to state the
exactly-one-retry property) and the second run's failure records. -/
structure RetryResult where
  success : Bool
  successfulEmissions : Batch
  failedIndividualsData : List FailedData
  allFailedIndividuals : List Insured
  submissions : List Batch
  retryFallidas : List FallidaRec
  deriving Repr

/-- The 417-with-`api_response` failures of the first run
(`api_validation_errors`). -/
def apiValidationErrors (fallidas : List FallidaRec) : List FallidaRec :=
  fallidas.filter fun f => f.statusCode = some 417 && f.apiFound.isSome

/-- `extract_failed_individuals_from_api_response`: the `found` list when
present and non-empty, else nothing. -/
def extractFound (f : FallidaRec) : List Insured :=
  match f.apiFound with
  | some found => found
  | none => []

/-- `process_si_emission_with_retry(json_path)`: run the batch, collect
417-reported individuals, filter them out of the batch, and resubmit the
filtered batch once.  `api1` and `api2` are the external API's behaviour
on the first and on the retry submission. -/
def process_si_emission_with_retry (api1 api2 : String → Emision → ApiOutcome)
    (batch : Batch) : RetryResult :=
  let apiErrors := apiValidationErrors (procesarFallidas api1 batch)
  let failedData := apiErrors.filterMap fun f =>
    if extractFound f = [] then none
    else some (⟨f.factura, extractFound f, []⟩ : FailedData)
  let allFailed := apiErrors.flatMap extractFound
  if apiErrors = [] then
    { success := true, successfulEmissions := procesarExitosas api1 batch
      failedIndividualsData := [], allFailedIndividuals := []
      submissions := [batch], retryFallidas := [] }
  else if allFailed = [] then
    { success := true, successfulEmissions := procesarExitosas api1 batch
      failedIndividualsData := failedData, allFailedIndividuals := allFailed
      submissions := [batch], retryFallidas := [] }
  else
    let fr := filter_individuals_from_json batch allFailed
    if fr.2 = [] then
      { success := true, successfulEmissions := procesarExitosas api1 batch
        failedIndividualsData := failedData, allFailedIndividuals := allFailed
        submissions := [batch], retryFallidas := [] }
    else
      { success := true, successfulEmissions := procesarExitosas api2 fr.1
        failedIndividualsData := failedData.map fun d => { d with removedIndividuals := fr.2 }
        allFailedIndividuals := allFailed
        submissions := [batch, fr.1]
        retryFallidas := procesarFallidas api2 fr.1 }

/-! ## Membership and ordering lemmas for the sweep -/

theorem lookup_append_self_isSome (s : DedupStore) (mid : String) (row : ProcRow) :
    ((s ++ [(mid, row)]).lookup mid).isSome := by
  induction s with
  | nil => simp [List.lookup]
  | cons kv s ih =>
    cases hb : (mid == kv.1) with
    | true => simp [List.lookup, hb]
    | false => simpa [List.lookup, hb] using ih

theorem mark_done_lookup_isSome (s : DedupStore) (mid : String) (row : ProcRow)
    (h : mid ≠ "") : ((mark_done s mid row).lookup mid).isSome := by
  unfold mark_done
  rw [if_neg h]
  by_cases hl : (List.lookup mid s).isSome = true
  · rw [if_pos hl]; exact hl
  · rw [if_neg hl]; exact lookup_append_self_isSome s mid row

theorem mem_insertByKey {α : Type} (key : α → Nat) (x p : α) (l : List α) :
    p ∈ insertByKey key x l ↔ p = x ∨ p ∈ l := by
  induction l with
  | nil => simp [insertByKey]
  | cons y ys ih =>
    by_cases h : key y < key x
    · simp only [insertByKey, if_pos h, List.mem_cons, ih]
      tauto
    · simp only [insertByKey, if_neg h, List.mem_cons]

theorem mem_sortByKey {α : Type} (key : α → Nat) (p : α) (l : List α) :
    p ∈ sortByKey key l ↔ p ∈ l := by
  induction l with
  | nil => simp [sortByKey]
  | cons y ys ih =>
    have e : sortByKey key (y :: ys) = insertByKey key y (sortByKey key ys) := rfl
    rw [e, mem_insertByKey, ih, List.mem_cons]

theorem mem_dispatchOrder (p : Msg × Nat) (l : List (Msg × Nat)) :
    p ∈ dispatchOrder l → p ∈ l := by
  intro h
  simp only [dispatchOrder, List.mem_flatMap, List.mem_filter] at h
  obtain ⟨k, _, hp, _⟩ := h
  exact hp

theorem mem_sweepCollect (store : DedupStore) (trigger : Msg → Bool)
    (allowed : Bool) (tNow : Nat) (msgs : List Msg) (p : Msg × Nat)
    (h : p ∈ sweepCollect store trigger allowed tNow msgs) :
    p.1 ∈ msgs ∧ already_done store p.1.mid = false ∧ trigger p.1 = true ∧
      allowed = true ∧ p.2 = extract_date_from_subject tNow p.1.subject := by
  simp only [sweepCollect, List.mem_filterMap] at h
  obtain ⟨m, hm, hsome⟩ := h
  split_ifs at hsome with h1 h2 h3
  rw [Option.some_inj] at hsome
  subst hsome
  simp only [Bool.not_eq_true] at h1
  exact ⟨hm, h1, h2, h3, rfl⟩

theorem mem_sweepDispatch (store : DedupStore) (trigger : Msg → Bool)
    (allowed : Bool) (tNow : Nat) (msgs : List Msg) (p : Msg × Nat)
    (h : p ∈ sweepDispatch store trigger allowed tNow msgs) :
    p ∈ sweepCollect store trigger allowed tNow msgs := by
  have h1 := mem_dispatchOrder p _ h
  exact (mem_sortByKey keyOf p _).mp h1

/-- C6: for a non-empty id, `mark_done` makes `already_done` true, a
redelivered message with that id is never dispatched by a later sweep, and
a second `mark_done` with the same id leaves the table unchanged; for the
empty id, `already_done` is false and `mark_done` is a no-op. -/
theorem dedup_store_contract (s : DedupStore) (mid : String) (row row' : ProcRow)
    (h : mid ≠ "") :
    already_done (mark_done s mid row) mid = true
    ∧ mark_done (mark_done s mid row) mid row' = mark_done s mid row
    ∧ (∀ (trigger : Msg → Bool) (allowed : Bool) (tNow : Nat) (msgs : List Msg)
        (p : Msg × Nat), p ∈ sweepDispatch (mark_done s mid row) trigger allowed tNow msgs →
        p.1.mid ≠ mid)
    ∧ already_done s "" = false
    ∧ mark_done s "" row = s := by
  refine ⟨?_, ?_, ?_, ?_, ?_⟩
  · unfold already_done
    rw [if_neg h]
    exact mark_done_lookup_isSome s mid row h
  · by_cases hl : (List.lookup mid s).isSome = true
    · have e1 : mark_done s mid row = s := by
        unfold mark_done; rw [if_neg h, if_pos hl]
      rw [e1]
      unfold mark_done; rw [if_neg h, if_pos hl]
    · have e1 : mark_done s mid row = s ++ [(mid, row)] := by
        unfold mark_done; rw [if_neg h, if_neg hl]
      rw [e1]
      unfold mark_done
      rw [if_neg h, if_pos (lookup_append_self_isSome s mid row)]
  · intro trigger allowed tNow msgs p hp hmid
    have hc := mem_sweepCollect _ _ _ _ _ _ (mem_sweepDispatch _ _ _ _ _ _ hp)
    have hdone : already_done (mark_done s mid row) p.1.mid = true := by
      rw [hmid]
      unfold already_done
      rw [if_neg h]
      exact mark_done_lookup_isSome s mid row h
    rw [hc.2.1] at hdone
    exact Bool.false_ne_true hdone
  · rfl
  · rfl

/-- Closed instance of `dedup_store_contract` at a concrete store and id. -/
theorem dedup_store_contract_witness :
    already_done (mark_done [] "id1" ⟨5, "s".data, "f"⟩) "id1" = true
    ∧ mark_done (mark_done [] "id1" ⟨5, "s".data, "f"⟩) "id1" ⟨9, "t".data, "g"⟩ =
        mark_done [] "id1" ⟨5, "s".data, "f"⟩
    ∧ (∀ (trigger : Msg → Bool) (allowed : Bool) (tNow : Nat) (msgs : List Msg)
        (p : Msg × Nat),
        p ∈ sweepDispatch (mark_done [] "id1" ⟨5, "s".data, "f"⟩) trigger allowed tNow msgs →
        p.1.mid ≠ "id1")
    ∧ already_done [] "" = false
    ∧ mark_done [] "" ⟨5, "s".data, "f"⟩ = [] :=
  dedup_store_contract [] "id1" ⟨5, "s".data, "f"⟩ ⟨9, "t".data, "g"⟩ (by decide)

/-- C9: the reconnect backoff for failure count `n ≥ 1` follows the
classified formulas of `calculate_backoff` — security/transport errors:
`min(3·2^n, 60)` for `n ≤ 3` and `min(3·2^n, 300)` for `n > 3`; generic
errors: `min(3·1.5^n, 120)` for `n ≤ 5` and `min(3·2^n, 300)` for
`n > 5` — and a sustained security-class error doubles from the base
while `n + 1 ≤ 3`, never exceeds 60s for `n ≤ 3`, and never exceeds 300s. -/
theorem calculate_backoff_shape (n : ℕ) (h : 1 ≤ n) :
    (n ≤ 3 → calculate_backoff n true = min (3 * 2 ^ n) 60)
    ∧ (3 < n → calculate_backoff n true = min (3 * 2 ^ n) 300)
    ∧ (n ≤ 5 → calculate_backoff n false = min (3 * (3 / 2 : ℚ) ^ n) 120)
    ∧ (5 < n → calculate_backoff n false = min (3 * 2 ^ n) 300)
    ∧ (n + 1 ≤ 3 → calculate_backoff (n + 1) true = 2 * calculate_backoff n true)
    ∧ (n ≤ 3 → calculate_backoff n true ≤ 60)
    ∧ calculate_backoff n true ≤ 300 := by
  refine ⟨?_, ?_, ?_, ?_, ?_, ?_, ?_⟩
  · intro h3
    simp [calculate_backoff, h3]
  · intro h3
    simp [calculate_backoff, Nat.not_le.mpr h3, not_le_of_lt h3]
  · intro h5
    simp [calculate_backoff, h5]
  · intro h5
    simp [calculate_backoff, Nat.not_le.mpr h5, not_le_of_lt h5]
  · intro h3
    have hn : n ≤ 3 := Nat.le_of_succ_le h3
    simp only [calculate_backoff, if_pos h3, if_pos hn, if_pos trivial]
    interval_cases n <;> norm_num
  · intro h3
    simp only [calculate_backoff, if_pos h3, if_pos trivial]
    exact min_le_right _ _
  · by_cases h3 : n ≤ 3
    · calc calculate_backoff n true ≤ 60 := by
            simp only [calculate_backoff, if_pos h3, if_pos trivial]
            exact min_le_right _ _
        _ ≤ 300 := by norm_num
    · simp only [calculate_backoff, if_neg h3, if_pos trivial]
      exact min_le_right _ _

/-- Closed instance of `calculate_backoff_shape` at `n = 2`: the concrete
doubling step 12 → 24 within the first three attempts. -/
theorem calculate_backoff_shape_witness :
    calculate_backoff 2 true = min (3 * 2 ^ 2) 60
    ∧ calculate_backoff 3 true = 2 * calculate_backoff 2 true
    ∧ calculate_backoff 2 true ≤ 60 :=
  ⟨(calculate_backoff_shape 2 (by norm_num)).1 (by norm_num),
   (calculate_backoff_shape 2 (by norm_num)).2.2.2.2.1 (by norm_num),
   (calculate_backoff_shape 2 (by norm_num)).2.2.2.2.2.1 (by norm_num)⟩

/-- C10: the routing key depends on the subject alone (any two senders
give the same result), is invariant under the subject's letter case
(subjects equal after lowercasing route identically), and is always one
of `"viajeros"`, `"si"`, `"unknown"`. -/
theorem detect_pipeline_type_subject_only (s t : List Char) (f1 f2 : String)
    (hcase : s.map lowerChar = t.map lowerChar) :
    detect_pipeline_type s f1 = detect_pipeline_type s f2
    ∧ detect_pipeline_type s f1 = detect_pipeline_type t f2
    ∧ (detect_pipeline_type s f1 = "viajeros" ∨ detect_pipeline_type s f1 = "si"
        ∨ detect_pipeline_type s f1 = "unknown") := by
  refine ⟨rfl, ?_, ?_⟩
  · simp only [detect_pipeline_type]
    rw [hcase]
  · simp only [detect_pipeline_type]
    by_cases h1 : containsSub "asegurados viajeros".data (s.map lowerChar) = true
    · simp [h1]
    · by_cases h2 : containsSub "asegurados salud internacional".data (s.map lowerChar) = true
      · simp [h1, h2]
      · simp [h1, h2]

/-- Closed instance of `detect_pipeline_type_subject_only`: an upper-case
and a lower-case spelling of the Viajeros subject, two distinct senders. -/
theorem detect_pipeline_type_subject_only_witness :
    detect_pipeline_type "ASEGURADOS Viajeros | 2025-01-01".data "x@a.com" =
      detect_pipeline_type "asegurados viajeros | 2025-01-01".data "y@b.com" :=
  (detect_pipeline_type_subject_only "ASEGURADOS Viajeros | 2025-01-01".data
    "asegurados viajeros | 2025-01-01".data "x@a.com" "y@b.com" (by decide)).2.1

/-- C3 (counterexample): a session in which both kinds started but
viajeros never completed.  `_send_timeout_report` computes
`si_active = started and completed`, so viajeros does not count as
active and the single-kind SI report is emitted — not the
coordination-failed report the claim requires for a started-but-
unfinished sibling. -/
theorem timeout_report_started_not_active :
    timeoutReportKind (some 0) (some 1) (some 0) none = TimeoutReportKind.siOnly
    ∧ TimeoutReportKind.siOnly ≠ TimeoutReportKind.coordinationFailed := by
  constructor
  · rfl
  · intro hco
    exact TimeoutReportKind.noConfusion hco

/-- C3 (amended): the timeout report treats a kind as active only when it
has both a start and a completion timestamp.  The coordination-failed
variant is emitted exactly when both kinds have both timestamps; a
single-kind variant exactly when that kind alone has both timestamps; a
kind that entered RUNNING but never completed counts as inactive. -/
theorem timeout_report_classification (ss sc vs vc : Option Nat) :
    (timeoutReportKind ss sc vs vc = TimeoutReportKind.coordinationFailed ↔
      (ss.isSome ∧ sc.isSome ∧ vs.isSome ∧ vc.isSome))
    ∧ (timeoutReportKind ss sc vs vc = TimeoutReportKind.siOnly ↔
      (ss.isSome ∧ sc.isSome ∧ ¬(vs.isSome ∧ vc.isSome)))
    ∧ (timeoutReportKind ss sc vs vc = TimeoutReportKind.viajerosOnly ↔
      (vs.isSome ∧ vc.isSome ∧ ¬(ss.isSome ∧ sc.isSome))) := by
  cases ss <;> cases sc <;> cases vs <;> cases vc <;>
    simp [timeoutReportKind]

/-- C1 (counterexample): the schedule in which the join check (agent 0)
and the timeout watcher (agent 1) both read `combined_report_sent` as
unset before either runs its set-and-emit transaction; the session's
report is emitted twice.  The flag read and the flag set happen in
separate SQLite transactions, so the gate is not atomic. -/
theorem report_gate_double_send :
    (raceRun [0, 1, 0, 1] raceInit).emissions = 2
    ∧ ¬ (∀ sched : List (Fin 2), (raceRun sched raceInit).emissions ≤ 1) := by
  constructor
  · rfl
  · intro hall
    have h := hall [0, 1, 0, 1]
    have e : (raceRun [0, 1, 0, 1] raceInit).emissions = 2 := rfl
    omega

/-- C1 (amended): the `combined_report_sent` gate does prevent a second
report whenever the two check-and-send executions do not interleave: in
every schedule where one agent finishes before the other starts, at most
one report is emitted. -/
theorem report_gate_serialized (a b : Fin 2) (h : a ≠ b) :
    (raceRun [a, a, b, b] raceInit).emissions ≤ 1 := by
  fin_cases a <;> fin_cases b <;> first
    | exact absurd rfl h
    | decide

/-- Closed instance of `report_gate_serialized`: the join check runs to
completion before the timeout watcher checks. -/
theorem report_gate_serialized_witness :
    (raceRun [0, 0, 1, 1] raceInit).emissions ≤ 1 :=
  report_gate_serialized 0 1 (by decide)

/-- C8 (counterexample): with push preferred, three consecutive IDLE
failures downgrade the watcher to polling (`use_idle = False`), but after
three polling failures `idle_loop` returns and `main` reconnects, and the
fresh `idle_loop` call recomputes `use_idle = (POLL_INTERVAL == 0)` — the
watcher re-enters IDLE mode after the downgrade, so push mode is retried
after a reconnect. -/
theorem watcher_idle_retried_after_reconnect :
    (watcherRun true [.cycleErr, .cycleErr, .cycleErr]).useIdle = false
    ∧ (watcherRun true [.cycleErr, .cycleErr, .cycleErr]).mode = WatchMode.pollMode
    ∧ (watcherRun true [.cycleErr, .cycleErr, .cycleErr, .cycleErr, .cycleErr,
        .cycleErr, .reconnected]).mode = WatchMode.idleMode := by
  exact ⟨rfl, rfl, rfl⟩

/-- C8 (amended): within one connection lifetime the downgrade is
permanent — from any state with `use_idle` unset and the watcher not in
IDLE mode, no sequence of cycle outcomes that contains no successful
reconnect ever re-enters IDLE mode or resets `use_idle`. -/
theorem watcher_poll_downgrade_permanent (pollPref : Bool) (s : WatcherState)
    (es : List WatchEvent) (hU : s.useIdle = false) (hM : s.mode ≠ WatchMode.idleMode)
    (hNoRe : ∀ e ∈ es, e ≠ WatchEvent.reconnected) :
    (es.foldl (watcherStep pollPref) s).useIdle = false
    ∧ (es.foldl (watcherStep pollPref) s).mode ≠ WatchMode.idleMode := by
  induction es generalizing s with
  | nil => exact ⟨hU, hM⟩
  | cons e es ih =>
    have hNoRe' : ∀ x ∈ es, x ≠ WatchEvent.reconnected := fun x hx => hNoRe x (List.mem_cons_of_mem e hx)
    have hE : e ≠ WatchEvent.reconnected := hNoRe e (List.mem_cons_self e es)
    refine ih (watcherStep pollPref s e) ?_ ?_ hNoRe'
    · cases hmode : s.mode with
      | idleMode => exact absurd hmode hM
      | pollMode =>
        cases e <;> simp [watcherStep, hmode, hU] <;> split <;> simp [hU]
      | reconnecting =>
        cases e with
        | cycleOk => simpa [watcherStep, hmode] using hU
        | cycleErr => simpa [watcherStep, hmode] using hU
        | reconnected => exact absurd rfl hE
    · cases hmode : s.mode with
      | idleMode => exact absurd hmode hM
      | pollMode =>
        cases e <;> simp [watcherStep, hmode] <;> split <;> simp
      | reconnecting =>
        cases e with
        | cycleOk => simp [watcherStep, hmode]
        | cycleErr => simp [watcherStep, hmode]
        | reconnected => exact absurd rfl hE

/-- Closed instance of `watcher_poll_downgrade_permanent`: after the
downgrade, six mixed polling cycles without a reconnect stay out of IDLE. -/
theorem watcher_poll_downgrade_permanent_witness :
    ((([.cycleOk, .cycleErr, .cycleErr, .cycleOk, .cycleErr, .cycleOk] :
        List WatchEvent).foldl (watcherStep true)
        (watcherRun true [.cycleErr, .cycleErr, .cycleErr])).useIdle = false)
    ∧ (([.cycleOk, .cycleErr, .cycleErr, .cycleOk, .cycleErr, .cycleOk] :
        List WatchEvent).foldl (watcherStep true)
        (watcherRun true [.cycleErr, .cycleErr, .cycleErr])).mode ≠ WatchMode.idleMode :=
  watcher_poll_downgrade_permanent true (watcherRun true [.cycleErr, .cycleErr, .cycleErr])
    [.cycleOk, .cycleErr, .cycleErr, .cycleOk, .cycleErr, .cycleOk]
    (by decide) (by decide) (by decide)

theorem sweepCollect_not_allowed (store : DedupStore) (trigger : Msg → Bool)
    (tNow : Nat) (msgs : List Msg) :
    sweepCollect store trigger false tNow msgs = [] := by
  induction msgs with
  | nil => rfl
  | cons m ms ih =>
    simp only [sweepCollect, List.filterMap_cons] at ih ⊢
    split_ifs <;> simp_all

/-- C2 (counterexample): a message that matches the trigger patterns but
arrives outside the allowed window.  The sweep's window check skips it
with `continue` before it is enqueued, and `mark_done` is only reached by
dispatched messages — so dispatch is suppressed but the store stays
empty: `already_done` remains false and the claim's "still marks the
message done" fails. -/
theorem window_rejection_not_marked :
    (sweepRun [] (fun _ => true) false 0 (fun _ => true)
        [⟨"mid-w", "Asegurados Viajeros | 2025-01-01".data, "x@a.com"⟩]).1 = []
    ∧ (sweepRun [] (fun _ => true) false 0 (fun _ => true)
        [⟨"mid-w", "Asegurados Viajeros | 2025-01-01".data, "x@a.com"⟩]).2 = []
    ∧ already_done (sweepRun [] (fun _ => true) false 0 (fun _ => true)
        [⟨"mid-w", "Asegurados Viajeros | 2025-01-01".data, "x@a.com"⟩]).2 "mid-w" = false := by
  exact ⟨rfl, rfl, rfl⟩

/-- C2 (amended): a sweep outside the allowed window dispatches nothing
and leaves the deduplication store unchanged — matched messages are
skipped without `mark_done`, so the store does not prevent their
reprocessing (only the mailbox's seen flag does). -/
theorem window_rejection_suppresses_and_skips_mark (store : DedupStore)
    (trigger : Msg → Bool) (tNow : Nat) (attachOk : Msg → Bool) (msgs : List Msg) :
    sweepRun store trigger false tNow attachOk msgs = ([], store) := by
  have hc := sweepCollect_not_allowed store trigger tNow msgs
  unfold sweepRun sweepDispatch
  rw [hc]
  rfl

theorem insertByKey_perm {α : Type} (key : α → Nat) (x : α) (l : List α) :
    (insertByKey key x l).Perm (x :: l) := by
  induction l with
  | nil => exact List.Perm.refl _
  | cons y ys ih =>
    by_cases h : key y < key x
    · simp only [insertByKey, if_pos h]
      exact ((ih.cons y).trans (List.Perm.swap x y ys))
    · simp only [insertByKey, if_neg h]
      exact List.Perm.refl _

theorem sortByKey_perm {α : Type} (key : α → Nat) (l : List α) :
    (sortByKey key l).Perm l := by
  induction l with
  | nil => exact List.Perm.refl _
  | cons y ys ih =>
    have e : sortByKey key (y :: ys) = insertByKey key y (sortByKey key ys) := rfl
    rw [e]
    exact (insertByKey_perm key y (sortByKey key ys)).trans (ih.cons y)

theorem sorted_insertByKey {α : Type} (key : α → Nat) (x : α) (l : List α)
    (h : l.Sorted (fun a b => key a ≤ key b)) :
    (insertByKey key x l).Sorted (fun a b => key a ≤ key b) := by
  induction l with
  | nil => simp [insertByKey]
  | cons y ys ih =>
    rw [List.sorted_cons] at h
    by_cases hk : key y < key x
    · simp only [insertByKey, if_pos hk]
      rw [List.sorted_cons]
      refine ⟨?_, ih h.2⟩
      intro b hb
      rcases (mem_insertByKey key x b ys).mp hb with hbx | hby
      · subst hbx; exact le_of_lt hk
      · exact h.1 b hby
    · simp only [insertByKey, if_neg hk]
      rw [List.sorted_cons]
      refine ⟨?_, ?_⟩
      · intro b hb
        rcases List.mem_cons.mp hb with hby | hbys
        · subst hby; exact Nat.le_of_not_lt hk
        · exact le_trans (Nat.le_of_not_lt hk) (h.1 b hbys)
      · rw [List.sorted_cons]
        exact h

theorem sorted_sortByKey {α : Type} (key : α → Nat) (l : List α) :
    (sortByKey key l).Sorted (fun a b => key a ≤ key b) := by
  induction l with
  | nil => simp [sortByKey]
  | cons y ys ih => exact sorted_insertByKey key y (sortByKey key ys) ih

theorem mem_firstOccAux (k : String) (l seen : List String) :
    k ∈ firstOccAux seen l ↔ k ∈ l ∧ k ∉ seen := by
  induction l generalizing seen with
  | nil => simp [firstOccAux]
  | cons j js ih =>
    by_cases hj : j ∈ seen
    · rw [firstOccAux, if_pos hj, ih]
      constructor
      · rintro ⟨h1, h2⟩; exact ⟨List.mem_cons_of_mem j h1, h2⟩
      · rintro ⟨h1, h2⟩
        rcases List.mem_cons.mp h1 with rfl | h1
        · exact absurd hj h2
        · exact ⟨h1, h2⟩
    · rw [firstOccAux, if_neg hj]
      constructor
      · intro h
        rcases List.mem_cons.mp h with rfl | h
        · exact ⟨List.mem_cons_self _ _, hj⟩
        · have := (ih (j :: seen)).mp h
          refine ⟨List.mem_cons_of_mem j this.1, fun hk => this.2 (List.mem_cons_of_mem j hk)⟩
      · rintro ⟨h1, h2⟩
        rcases List.mem_cons.mp h1 with rfl | h1
        · exact List.mem_cons_self _ _
        · by_cases hkj : k = j
          · subst hkj; exact List.mem_cons_self _ _
          · exact List.mem_cons_of_mem _ ((ih (j :: seen)).mpr
              ⟨h1, fun hk => (List.mem_cons.mp hk).elim hkj h2⟩)

theorem nodup_firstOccAux (l seen : List String) : (firstOccAux seen l).Nodup := by
  induction l generalizing seen with
  | nil => simp [firstOccAux]
  | cons j js ih =>
    by_cases hj : j ∈ seen
    · rw [firstOccAux, if_pos hj]; exact ih seen
    · rw [firstOccAux, if_neg hj]
      refine List.nodup_cons.mpr ⟨?_, ih (j :: seen)⟩
      intro hmem
      exact ((mem_firstOccAux j js (j :: seen)).mp hmem).2 (List.mem_cons_self _ _)

theorem mem_firstOccurrences (k : String) (l : List String) :
    k ∈ firstOccurrences l ↔ k ∈ l := by
  rw [firstOccurrences, mem_firstOccAux]
  simp

theorem flatMap_congr_mem {β : Type} (ks : List String) (f g : String → List β)
    (h : ∀ k ∈ ks, f k = g k) : ks.flatMap f = ks.flatMap g := by
  induction ks with
  | nil => rfl
  | cons k ks ih =>
    rw [List.flatMap_cons, List.flatMap_cons, h k (List.mem_cons_self _ _),
      ih fun j hj => h j (List.mem_cons_of_mem k hj)]

theorem flatMap_groups_perm (ks : List String) (l : List (Msg × Nat))
    (hnd : ks.Nodup) (hall : ∀ p ∈ l, routeOf p.1 ∈ ks) :
    (ks.flatMap fun k => l.filter fun p => routeOf p.1 == k).Perm l := by
  induction ks generalizing l with
  | nil =>
    have hl : l = [] := by
      cases l with
      | nil => rfl
      | cons p ps => exact absurd (hall p (List.mem_cons_self _ _)) (List.not_mem_nil _)
    subst hl
    exact List.Perm.refl _
  | cons k ks ih =>
    rw [List.flatMap_cons]
    rw [List.nodup_cons] at hnd
    have hfix : ∀ j ∈ ks, l.filter (fun p => routeOf p.1 == j) =
        (l.filter fun p => !(routeOf p.1 == k)).filter fun p => routeOf p.1 == j := by
      intro j hj
      rw [List.filter_filter]
      refine (List.filter_congr ?_).symm
      intro p _
      by_cases hp : routeOf p.1 = j
      · have hjk : ¬ j = k := fun hjk => hnd.1 (hjk ▸ hj)
        simp [hp, beq_iff_eq, hjk]
      · simp [beq_eq_false_iff_ne.mpr hp]
    rw [flatMap_congr_mem ks _ _ hfix]
    have hside : ∀ p ∈ (l.filter fun p => !(routeOf p.1 == k)), routeOf p.1 ∈ ks := by
      intro p hp
      rw [List.mem_filter] at hp
      have hr := hall p hp.1
      rcases List.mem_cons.mp hr with hk | hks
      · exfalso
        have hne := hp.2
        rw [Bool.not_eq_true', beq_eq_false_iff_ne] at hne
        exact hne hk
      · exact hks
    have hperm := ih (l.filter fun p => !(routeOf p.1 == k)) hnd.2 hside
    exact (hperm.append_left _).trans (List.filter_append_perm _ l)

theorem dispatchOrder_perm (l : List (Msg × Nat)) : (dispatchOrder l).Perm l := by
  apply flatMap_groups_perm
  · exact nodup_firstOccAux _ []
  · intro p hp
    rw [mem_firstOccurrences]
    exact List.mem_map_of_mem _ hp

theorem filter_flatMap_groups (ks : List String) (l : List (Msg × Nat)) (k : String)
    (hnd : ks.Nodup) :
    ((ks.flatMap fun j => l.filter fun p => routeOf p.1 == j).filter fun p =>
        routeOf p.1 == k)
      = if k ∈ ks then l.filter (fun p => routeOf p.1 == k) else [] := by
  induction ks with
  | nil => simp
  | cons j js ih =>
    rw [List.flatMap_cons, List.filter_append]
    rw [List.nodup_cons] at hnd
    have h1 : ((l.filter fun p => routeOf p.1 == j).filter fun p => routeOf p.1 == k)
        = if k = j then l.filter (fun p => routeOf p.1 == k) else [] := by
      by_cases hkj : k = j
      · subst hkj
        rw [if_pos rfl, List.filter_filter]
        apply List.filter_congr
        intro p _
        by_cases hp : routeOf p.1 = k <;> simp [hp, beq_iff_eq]
      · rw [if_neg hkj, List.filter_filter, List.filter_eq_nil_iff]
        intro p _ hcon
        rw [Bool.and_eq_true, beq_iff_eq, beq_iff_eq] at hcon
        first
          | exact hkj (hcon.2.symm.trans hcon.1)
          | exact hkj (hcon.1.symm.trans hcon.2)
    rw [ih hnd.2, h1]
    by_cases hkj : k = j
    · subst hkj
      rw [if_pos rfl, if_pos (List.mem_cons_self _ _), if_neg hnd.1, List.append_nil]
    · rw [if_neg hkj, List.nil_append]
      by_cases hks : k ∈ js
      · rw [if_pos hks, if_pos (List.mem_cons_of_mem j hks)]
      · rw [if_neg hks, if_neg ?hnone]
        case hnone =>
          intro h
          rcases List.mem_cons.mp h with h | h
          · exact hkj h
          · exact hks h

theorem filter_dispatchOrder (l : List (Msg × Nat)) (k : String) :
    (dispatchOrder l).filter (fun p => routeOf p.1 == k) =
      l.filter fun p => routeOf p.1 == k := by
  unfold dispatchOrder
  have hnd : (firstOccurrences (l.map fun p => routeOf p.1)).Nodup :=
    nodup_firstOccAux _ []
  rw [filter_flatMap_groups _ l k hnd]
  by_cases hk : k ∈ firstOccurrences (l.map fun p => routeOf p.1)
  · rw [if_pos hk]
  · rw [if_neg hk]
    symm
    rw [List.filter_eq_nil_iff]
    intro p hp hcon
    rw [mem_firstOccurrences] at hk
    rw [beq_iff_eq] at hcon
    exact hk (hcon ▸ List.mem_map_of_mem _ hp)

/-- C7 (counterexample): a sweep with four matched events — viajeros
dated 2025-01-01, SI dated 2025-06-01, viajeros with no date (keyed to
the current instant), SI dated 2999-01-02.  The ascending key sort is
[v1, s2, v3, s4], but dispatch groups by pipeline type first, so the
actual dispatch order is [v1, v3, s2, s4] ≠ the sorted order; and the
undated event v3 is not last in the key order (the future-dated s4 sorts
after it), refuting "unparseable dates sort last". -/
theorem sweep_dispatch_not_sorted :
    ((sweepDispatch [] (fun _ => true) true (dateStamp 2025 10 12 + 3600)
        [⟨"v1", "Asegurados Viajeros | 2025-01-01".data, "a@x"⟩,
         ⟨"s2", "Asegurados Salud Internacional | 2025-06-01".data, "a@x"⟩,
         ⟨"v3", "Asegurados Viajeros".data, "a@x"⟩,
         ⟨"s4", "Asegurados Salud Internacional | 2999-01-02".data, "a@x"⟩]).map
      (fun p => p.1.mid)) = ["v1", "v3", "s2", "s4"]
    ∧ ((sortByKey keyOf (sweepCollect [] (fun _ => true) true
          (dateStamp 2025 10 12 + 3600)
        [⟨"v1", "Asegurados Viajeros | 2025-01-01".data, "a@x"⟩,
         ⟨"s2", "Asegurados Salud Internacional | 2025-06-01".data, "a@x"⟩,
         ⟨"v3", "Asegurados Viajeros".data, "a@x"⟩,
         ⟨"s4", "Asegurados Salud Internacional | 2999-01-02".data, "a@x"⟩])).map
      (fun p => p.1.mid)) = ["v1", "s2", "v3", "s4"]
    ∧ (["v1", "v3", "s2", "s4"] : List String) ≠ ["v1", "s2", "v3", "s4"] := by
  refine ⟨by decide, by decide, by decide⟩

/-- C7 (amended): dispatch is the ascending stable key sort *regrouped by
pipeline type*: the dispatched events are a permutation of the matched
not-yet-done events; within each routing key the dispatch order is
exactly the ascending key order (and so is sorted by key); and an event
whose subject has an unparseable or absent date receives the current
instant as its key (so it sorts after every event with a smaller key, but
not after a future-dated one). -/
theorem sweep_dispatch_grouped_order (store : DedupStore) (trigger : Msg → Bool)
    (allowed : Bool) (tNow : Nat) (msgs : List Msg) :
    (sweepDispatch store trigger allowed tNow msgs).Perm
        (sweepCollect store trigger allowed tNow msgs)
    ∧ (∀ k, (sweepDispatch store trigger allowed tNow msgs).filter
          (fun p => routeOf p.1 == k) =
        (sortByKey keyOf (sweepCollect store trigger allowed tNow msgs)).filter
          (fun p => routeOf p.1 == k))
    ∧ (∀ k, ((sweepDispatch store trigger allowed tNow msgs).filter
          (fun p => routeOf p.1 == k)).Sorted (fun a b => keyOf a ≤ keyOf b))
    ∧ (∀ p ∈ sweepCollect store trigger allowed tNow msgs,
        findDate p.1.subject = none → p.2 = tNow) := by
  refine ⟨?_, ?_, ?_, ?_⟩
  · exact (dispatchOrder_perm _).trans (sortByKey_perm _ _)
  · intro k
    exact filter_dispatchOrder _ k
  · intro k
    unfold sweepDispatch
    rw [filter_dispatchOrder _ k]
    exact List.Pairwise.filter _ (sorted_sortByKey keyOf _)
  · intro p hp hfind
    have hc := mem_sweepCollect _ _ _ _ _ _ hp
    rw [hc.2.2.2.2, extract_date_from_subject, hfind]

/-- Closed instance of `sweep_dispatch_grouped_order`: the undated
viajeros subject receives the current instant as its ordering key. -/
theorem sweep_dispatch_grouped_order_witness :
    ((⟨"v3", "Asegurados Viajeros".data, "a@x"⟩ : Msg),
      dateStamp 2025 10 12 + 3600).2 = dateStamp 2025 10 12 + 3600 :=
  (sweep_dispatch_grouped_order [] (fun _ => true) true (dateStamp 2025 10 12 + 3600)
      [⟨"v3", "Asegurados Viajeros".data, "a@x"⟩]).2.2.2
    (⟨"v3", "Asegurados Viajeros".data, "a@x"⟩, dateStamp 2025 10 12 + 3600)
    (by decide) (by decide)

/-! ## Lemmas for the SI retry-with-exclusion executor -/

theorem length_filter_partition {α : Type} (p : α → Bool) (l : List α) :
    (l.filter fun a => !(p a)).length + (l.filter p).length = l.length := by
  induction l with
  | nil => rfl
  | cons a l ih => cases h : p a <;> simp [List.filter_cons, h] <;> omega

theorem getLeft_groupOutcome (api : String → Emision → ApiOutcome)
    (a pe : String × Emision) (h : (groupOutcome api a).getLeft? = some pe) :
    pe = a := by
  unfold groupOutcome at h
  split_ifs at h with hins
  · simp at h
  · cases hapi : api a.1 a.2 <;> rw [hapi] at h <;> simp at h
    exact h.symm

theorem mem_procesarExitosas (api : String → Emision → ApiOutcome) (batch : Batch)
    (pe : String × Emision) (h : pe ∈ procesarExitosas api batch) : pe ∈ batch := by
  rw [procesarExitosas, List.mem_filterMap] at h
  obtain ⟨a, ha, hsome⟩ := h
  rw [getLeft_groupOutcome api a pe hsome]
  exact ha

theorem retry_run_reduction (api1 api2 : String → Emision → ApiOutcome)
    (batch : Batch) (F : List Insured)
    (hF : F = (apiValidationErrors (procesarFallidas api1 batch)).flatMap extractFound)
    (herr : apiValidationErrors (procesarFallidas api1 batch) ≠ [])
    (hFne : F ≠ [])
    (hrem : (filter_individuals_from_json batch F).2 ≠ []) :
    process_si_emission_with_retry api1 api2 batch =
      ⟨true,
       procesarExitosas api2 (filter_individuals_from_json batch F).1,
       ((apiValidationErrors (procesarFallidas api1 batch)).filterMap fun f =>
          if extractFound f = [] then none
          else some (⟨f.factura, extractFound f, []⟩ : FailedData)).map fun d =>
            { d with removedIndividuals := (filter_individuals_from_json batch F).2 },
       F,
       [batch, (filter_individuals_from_json batch F).1],
       procesarFallidas api2 (filter_individuals_from_json batch F).1⟩ := by
  subst hF
  simp only [process_si_emission_with_retry]
  rw [if_neg herr, if_neg hFne, if_neg hrem]

/-- C4: with `F` the individuals reported by the validation step, the
filtered batch replaces every group by exactly its members whose passport
and identity match no excluded individual (membership characterisation
plus the kept/removed length partition); every removed member is surfaced
in the `failed_individuals_data` ("requires manual handling") output;
no member matching an exclusion appears in any successful unit of the
retry; and the filtered batch is resubmitted exactly once — the
submission trace is the original batch followed by the filtered batch and
nothing else.  (The external step `procesar_validacion` is not under
`src/` and is modelled from the spec.) -/
theorem si_retry_batch_membership (api1 api2 : String → Emision → ApiOutcome)
    (batch : Batch) (F : List Insured)
    (hF : F = (apiValidationErrors (procesarFallidas api1 batch)).flatMap extractFound)
    (herr : apiValidationErrors (procesarFallidas api1 batch) ≠ [])
    (hFne : F ≠ [])
    (hrem : (filter_individuals_from_json batch F).2 ≠ []) :
    (∀ pn em, (pn, em) ∈ batch →
      (pn, filterEmision (failedPassports F) (failedIdentities F) em) ∈
          (filter_individuals_from_json batch F).1
      ∧ (∀ i, i ∈ (filterEmision (failedPassports F) (failedIdentities F) em).insured ↔
          (i ∈ em.insured ∧
            shouldRemove (failedPassports F) (failedIdentities F) i = false))
      ∧ (filterEmision (failedPassports F) (failedIdentities F) em).insured.length
          + (em.insured.filter
              (shouldRemove (failedPassports F) (failedIdentities F))).length
          = em.insured.length)
    ∧ (∀ i ∈ (filter_individuals_from_json batch F).2,
        ∃ d ∈ (process_si_emission_with_retry api1 api2 batch).failedIndividualsData,
          i ∈ d.removedIndividuals)
    ∧ (∀ i, shouldRemove (failedPassports F) (failedIdentities F) i = true →
        ∀ pe ∈ (process_si_emission_with_retry api1 api2 batch).successfulEmissions,
          i ∉ pe.2.insured)
    ∧ (process_si_emission_with_retry api1 api2 batch).submissions =
        [batch, (filter_individuals_from_json batch F).1] := by
  have hred := retry_run_reduction api1 api2 batch F hF herr hFne hrem
  have hfil : filter_individuals_from_json batch F =
      (batch.map fun pe =>
          (pe.1, filterEmision (failedPassports F) (failedIdentities F) pe.2),
        batch.flatMap fun pe =>
          pe.2.insured.filter
            (shouldRemove (failedPassports F) (failedIdentities F))) := by
    rw [filter_individuals_from_json, if_neg hFne]
  refine ⟨?_, ?_, ?_, ?_⟩
  · intro pn em hmem
    refine ⟨?_, ?_, ?_⟩
    · rw [hfil]
      exact List.mem_map_of_mem _ hmem
    · intro i
      show i ∈ em.insured.filter _ ↔ _
      rw [List.mem_filter, Bool.not_eq_true']
    · exact length_filter_partition _ em.insured
  · intro i hi
    rw [hred]
    have hex : ∃ f ∈ apiValidationErrors (procesarFallidas api1 batch),
        extractFound f ≠ [] := by
      by_contra hno
      push_neg at hno
      apply hFne
      rw [hF, List.flatMap_eq_nil_iff]
      exact hno
    obtain ⟨f, hf, hfe⟩ := hex
    refine ⟨⟨f.factura, extractFound f, (filter_individuals_from_json batch F).2⟩, ?_, hi⟩
    simp only [List.mem_map]
    refine ⟨⟨f.factura, extractFound f, []⟩, ?_, rfl⟩
    rw [List.mem_filterMap]
    exact ⟨f, hf, by rw [if_neg hfe]⟩
  · intro i hi pe hpe hins
    rw [hred] at hpe
    have hmem := mem_procesarExitosas _ _ _ hpe
    rw [hfil] at hmem
    rw [List.mem_map] at hmem
    obtain ⟨a, _, rfl⟩ := hmem
    simp only [filterEmision] at hins
    rw [List.mem_filter, Bool.not_eq_true'] at hins
    rw [hi] at hins
    exact absurd hins.2 (by decide)
  · rw [hred]

/-- Closed instance of `si_retry_batch_membership`: the spec's example — a
5-member group from which the validation step excludes m2 and m4; the
retried group is exactly m1, m3, m5, and the filtered batch is submitted
exactly once after the original. -/
theorem si_retry_batch_membership_witness :
    (filter_individuals_from_json
        [("pol1", ⟨[⟨some "P1", none, "m1"⟩, ⟨some "P2", none, "m2"⟩,
                    ⟨some "P3", none, "m3"⟩, ⟨some "P4", none, "m4"⟩,
                    ⟨some "P5", none, "m5"⟩], 5⟩)]
        [⟨some "P2", none, "m2"⟩, ⟨some "P4", none, "m4"⟩]).1 =
      [("pol1", ⟨[⟨some "P1", none, "m1"⟩, ⟨some "P3", none, "m3"⟩,
                  ⟨some "P5", none, "m5"⟩], 3⟩)]
    ∧ (process_si_emission_with_retry
        (fun _ _ => ApiOutcome.reject417
          [⟨some "P2", none, "m2"⟩, ⟨some "P4", none, "m4"⟩])
        (fun _ _ => ApiOutcome.success)
        [("pol1", ⟨[⟨some "P1", none, "m1"⟩, ⟨some "P2", none, "m2"⟩,
                    ⟨some "P3", none, "m3"⟩, ⟨some "P4", none, "m4"⟩,
                    ⟨some "P5", none, "m5"⟩], 5⟩)]).submissions =
      [[("pol1", ⟨[⟨some "P1", none, "m1"⟩, ⟨some "P2", none, "m2"⟩,
                   ⟨some "P3", none, "m3"⟩, ⟨some "P4", none, "m4"⟩,
                   ⟨some "P5", none, "m5"⟩], 5⟩)],
       (filter_individuals_from_json
          [("pol1", ⟨[⟨some "P1", none, "m1"⟩, ⟨some "P2", none, "m2"⟩,
                      ⟨some "P3", none, "m3"⟩, ⟨some "P4", none, "m4"⟩,
                      ⟨some "P5", none, "m5"⟩], 5⟩)]
          [⟨some "P2", none, "m2"⟩, ⟨some "P4", none, "m4"⟩]).1] :=
  ⟨by decide,
   (si_retry_batch_membership
      (fun _ _ => ApiOutcome.reject417
        [⟨some "P2", none, "m2"⟩, ⟨some "P4", none, "m4"⟩])
      (fun _ _ => ApiOutcome.success)
      [("pol1", ⟨[⟨some "P1", none, "m1"⟩, ⟨some "P2", none, "m2"⟩,
                  ⟨some "P3", none, "m3"⟩, ⟨some "P4", none, "m4"⟩,
                  ⟨some "P5", none, "m5"⟩], 5⟩)]
      [⟨some "P2", none, "m2"⟩, ⟨some "P4", none, "m4"⟩]
      (by decide) (by decide) (by decide) (by decide)).2.2.2⟩

/-- C5: a group whose member list becomes empty after exclusion is
recorded by the retry run as failed with reason "all members excluded"
and is not among the groups actually submitted — no submitted group of
the filtered batch has an empty member list.  (`procesar_validacion`,
which skips and records emptied groups, is not under `src/` and is
modelled from the spec; the filtering step itself keeps the emptied group
in the filtered JSON with an empty insured list.) -/
theorem si_empty_group_all_members_excluded
    (api1 api2 : String → Emision → ApiOutcome) (batch : Batch) (F : List Insured)
    (hF : F = (apiValidationErrors (procesarFallidas api1 batch)).flatMap extractFound)
    (herr : apiValidationErrors (procesarFallidas api1 batch) ≠ [])
    (hFne : F ≠ [])
    (hrem : (filter_individuals_from_json batch F).2 ≠ [])
    (pn : String) (em : Emision) (hmem : (pn, em) ∈ batch)
    (hempty : em.insured.filter
        (fun i => !(shouldRemove (failedPassports F) (failedIdentities F) i)) = []) :
    (∃ fr ∈ (process_si_emission_with_retry api1 api2 batch).retryFallidas,
        fr.factura = pn ∧ fr.reason = "all members excluded")
    ∧ (∀ pe ∈ submittedGroups (filter_individuals_from_json batch F).1,
        pe.2.insured ≠ []) := by
  have hred := retry_run_reduction api1 api2 batch F hF herr hFne hrem
  have hfil : filter_individuals_from_json batch F =
      (batch.map fun pe =>
          (pe.1, filterEmision (failedPassports F) (failedIdentities F) pe.2),
        batch.flatMap fun pe =>
          pe.2.insured.filter
            (shouldRemove (failedPassports F) (failedIdentities F))) := by
    rw [filter_individuals_from_json, if_neg hFne]
  have hempty2 : (filterEmision (failedPassports F) (failedIdentities F) em).insured
      = [] := by
    simp only [filterEmision]
    exact hempty
  constructor
  · have hmem2 : (pn, filterEmision (failedPassports F) (failedIdentities F) em) ∈
        (filter_individuals_from_json batch F).1 := by
      rw [hfil]
      exact List.mem_map_of_mem _ hmem
    have hgoal : ∃ fr ∈ procesarFallidas api2 (filter_individuals_from_json batch F).1,
        fr.factura = pn ∧ fr.reason = "all members excluded" := by
      refine ⟨⟨pn, filterEmision (failedPassports F) (failedIdentities F) em,
          none, none, "all members excluded"⟩, ?_, rfl, rfl⟩
      rw [procesarFallidas, List.mem_filterMap]
      refine ⟨(pn, filterEmision (failedPassports F) (failedIdentities F) em), hmem2, ?_⟩
      unfold groupOutcome
      rw [if_pos hempty2]
      rfl
    rw [hred]
    exact hgoal
  · intro pe hpe
    rw [submittedGroups, List.mem_filter] at hpe
    exact of_decide_eq_true hpe.2

/-- Closed instance of `si_empty_group_all_members_excluded`: a two-group
batch where the validation step excludes both members of group polA; the
retry records polA as "all members excluded" and submits only non-empty
groups. -/
theorem si_empty_group_all_members_excluded_witness :
    ∃ fr ∈ (process_si_emission_with_retry
        (fun pn _ => if pn = "polA"
          then ApiOutcome.reject417 [⟨some "PA", none, "a"⟩, ⟨some "PB", none, "b"⟩]
          else ApiOutcome.success)
        (fun _ _ => ApiOutcome.success)
        [("polA", ⟨[⟨some "PA", none, "a"⟩, ⟨some "PB", none, "b"⟩], 2⟩),
         ("polB", ⟨[⟨some "PC", none, "c"⟩], 1⟩)]).retryFallidas,
      fr.factura = "polA" ∧ fr.reason = "all members excluded" :=
  (si_empty_group_all_members_excluded
    (fun pn _ => if pn = "polA"
      then ApiOutcome.reject417 [⟨some "PA", none, "a"⟩, ⟨some "PB", none, "b"⟩]
      else ApiOutcome.success)
    (fun _ _ => ApiOutcome.success)
    [("polA", ⟨[⟨some "PA", none, "a"⟩, ⟨some "PB", none, "b"⟩], 2⟩),
     ("polB", ⟨[⟨some "PC", none, "c"⟩], 1⟩)]
    [⟨some "PA", none, "a"⟩, ⟨some "PB", none, "b"⟩]
    (by decide) (by decide) (by decide) (by decide)
    "polA" ⟨[⟨some "PA", none, "a"⟩, ⟨some "PB", none, "b"⟩], 2⟩
    (by decide) (by decide)).1
